import Mathlib

/-!
Verification of the Black-Scholes options pricing engine.

The development shallowly embeds the pricing kernel (src/black_scholes.cpp),
the batch evaluator (price_batch) and their data model (OptionType, Greeks,
Contract) over the real numbers, and proves the specified properties of the
spec against that embedding.  Machine doubles are modelled as real numbers;
the library routines std::log, std::exp, std::sqrt, std::erfc are modelled by
Real.log, Real.exp, Real.sqrt and an erfc defined by its standard integral
formula.  Definitions mirror the C++ source line by line; definitions whose
name starts with spec mirror the natural-language specification instead, for
comparison with the source-derived ones.
-/

/-- Option type: European call or put (enum class OptionType in
black_scholes.hpp). -/
inductive OptionType where
  | CALL : OptionType
  | PUT : OptionType
deriving DecidableEq, Repr

/-- Sensitivities of the option price to its inputs (struct Greeks in
black_scholes.hpp). -/
structure Greeks where
  delta : ℝ
  gamma : ℝ
  vega : ℝ
  theta : ℝ

/-- All parameters needed to price a single option contract (struct Contract
in batch_pricer.hpp). -/
structure Contract where
  S : ℝ
  K : ℝ
  r : ℝ
  sigma : ℝ
  T : ℝ
  option_type : OptionType

/-- The complementary error function, modelling std::erfc: the C library
defines erfc x as 2 divided by the square root of pi, times the integral of
exp of minus t squared over t from x to infinity. -/
noncomputable def erfc (x : ℝ) : ℝ :=
  2 / Real.sqrt Real.pi * ∫ t in Set.Ioi x, Real.exp (-t ^ 2)

/-- Standard normal CDF via the complementary error function, as in
black_scholes.cpp: norm_cdf x is erfc of minus x over sqrt 2, halved. -/
noncomputable def norm_cdf (x : ℝ) : ℝ :=
  erfc (-x / Real.sqrt 2) / 2

/-- The literal constant 0.3989422804014327 used for one over sqrt of two pi
in black_scholes.cpp. -/
def INV_SQRT_2PI : ℝ := 0.3989422804014327

/-- Standard normal PDF, as in black_scholes.cpp. -/
noncomputable def norm_pdf (x : ℝ) : ℝ :=
  INV_SQRT_2PI * Real.exp (-0.5 * x * x)

/-- d1: log-moneyness adjusted for risk-free drift and half-variance, as in
black_scholes.cpp. -/
noncomputable def d1 (S K r sigma T : ℝ) : ℝ :=
  (Real.log (S / K) + (r + 0.5 * sigma * sigma) * T) / (sigma * Real.sqrt T)

/-- d2: d1 minus one standard deviation, as in black_scholes.cpp. -/
noncomputable def d2 (d1_val sigma T : ℝ) : ℝ :=
  d1_val - sigma * Real.sqrt T

/-- Black-Scholes price of a European option (price_option in
black_scholes.cpp). -/
noncomputable def price_option (S K r sigma T : ℝ) (type : OptionType) : ℝ :=
  let d1v := d1 S K r sigma T
  let d2v := d2 d1v sigma T
  let disc := Real.exp (-r * T)
  match type with
  | OptionType.CALL => S * norm_cdf d1v - K * disc * norm_cdf d2v
  | OptionType.PUT => K * disc * norm_cdf (-d2v) - S * norm_cdf (-d1v)

/-- Analytical Black-Scholes Greeks (compute_greeks in black_scholes.cpp). -/
noncomputable def compute_greeks (S K r sigma T : ℝ) (type : OptionType) : Greeks :=
  let d1v := d1 S K r sigma T
  let d2v := d2 d1v sigma T
  let sqrtT := Real.sqrt T
  let disc := Real.exp (-r * T)
  let npd1 := norm_pdf d1v
  let delta := match type with
    | OptionType.CALL => norm_cdf d1v
    | OptionType.PUT => norm_cdf d1v - 1.0
  let gamma := npd1 / (S * sigma * sqrtT)
  let vega := S * npd1 * sqrtT / 100.0
  let common_term := -(S * npd1 * sigma) / (2.0 * sqrtT)
  let theta := match type with
    | OptionType.CALL => (common_term - r * K * disc * norm_cdf d2v) / 365.0
    | OptionType.PUT => (common_term + r * K * disc * norm_cdf (-d2v)) / 365.0
  { delta := delta, gamma := gamma, vega := vega, theta := theta }

/-- Price of one contract, as invoked by the batch loop body. -/
noncomputable def price_contract (c : Contract) : ℝ :=
  price_option c.S c.K c.r c.sigma c.T c.option_type

/-- The loop of price_batch in batch_pricer.cpp: iterate over the contracts,
appending the price of each to the accumulated output vector. -/
noncomputable def price_batch_loop : List Contract → List ℝ → List ℝ
  | [], prices => prices
  | c :: cs, prices => price_batch_loop cs (prices ++ [price_contract c])

/-- Price a batch of contracts (price_batch in batch_pricer.cpp): start from
an empty output vector and run the loop. -/
noncomputable def price_batch (contracts : List Contract) : List ℝ :=
  price_batch_loop contracts []

/-- Caller-visible state of a price_batch call: the contracts vector owned by
the caller (passed by const reference) and the output prices vector. -/
structure BatchState where
  contracts : List Contract
  prices : List ℝ

/-- One iteration of the price_batch loop acting on the whole caller state:
reads one contract, appends one price, touches nothing else. -/
noncomputable def batch_body (st : BatchState) (c : Contract) : BatchState :=
  { st with prices := st.prices ++ [price_contract c] }

/-- The price_batch call as a state transformer over the caller state: fold
the loop body over the contracts, starting with an empty output vector. -/
noncomputable def price_batch_call (contracts : List Contract) : BatchState :=
  List.foldl batch_body { contracts := contracts, prices := [] } contracts

/- ------------------------------------------------------------------ -/
/- Mathematical facts about the Gaussian integral and erfc.           -/
/- ------------------------------------------------------------------ -/

lemma gauss_integrable : MeasureTheory.Integrable (fun t : ℝ => Real.exp (-t ^ 2)) := by
  have h := integrable_exp_neg_mul_sq (one_pos (α := ℝ))
  simpa using h

lemma gauss_integral_total : (∫ t : ℝ, Real.exp (-t ^ 2)) = Real.sqrt Real.pi := by
  have h := integral_gaussian 1
  simpa using h

lemma gauss_integral_reflect (x : ℝ) :
    (∫ t in Set.Iic x, Real.exp (-t ^ 2)) = ∫ t in Set.Ioi (-x), Real.exp (-t ^ 2) := by
  have h := integral_comp_neg_Iic x (fun t => Real.exp (-t ^ 2))
  simpa using h

lemma gauss_split (x : ℝ) :
    (∫ t in Set.Iic x, Real.exp (-t ^ 2)) + (∫ t in Set.Ioi x, Real.exp (-t ^ 2))
      = Real.sqrt Real.pi := by
  rw [← gauss_integral_total]
  exact intervalIntegral.integral_Iic_add_Ioi gauss_integrable.integrableOn
    gauss_integrable.integrableOn

lemma sqrt_pi_pos : 0 < Real.sqrt Real.pi :=
  Real.sqrt_pos.mpr Real.pi_pos

lemma erfc_add_neg (x : ℝ) : erfc x + erfc (-x) = 2 := by
  have hpi : Real.sqrt Real.pi ≠ 0 := ne_of_gt sqrt_pi_pos
  unfold erfc
  rw [← gauss_integral_reflect, ← mul_add,
    add_comm (∫ t in Set.Ioi x, Real.exp (-t ^ 2)) _, gauss_split]
  field_simp

lemma erfc_nonneg (x : ℝ) : 0 ≤ erfc x := by
  unfold erfc
  apply mul_nonneg
  · positivity
  · exact MeasureTheory.integral_nonneg fun t => (Real.exp_pos _).le

lemma erfc_le_two (x : ℝ) : erfc x ≤ 2 := by
  have h := erfc_add_neg x
  have h2 := erfc_nonneg (-x)
  linarith

lemma norm_cdf_nonneg (x : ℝ) : 0 ≤ norm_cdf x := by
  unfold norm_cdf
  linarith [erfc_nonneg (-x / Real.sqrt 2)]

lemma norm_cdf_le_one (x : ℝ) : norm_cdf x ≤ 1 := by
  unfold norm_cdf
  linarith [erfc_le_two (-x / Real.sqrt 2)]

lemma norm_cdf_neg (x : ℝ) : norm_cdf (-x) = 1 - norm_cdf x := by
  unfold norm_cdf
  have hx : -(-x) / Real.sqrt 2 = -(-x / Real.sqrt 2) := by ring
  have h := erfc_add_neg (-x / Real.sqrt 2)
  rw [hx]
  linarith

lemma norm_pdf_pos (x : ℝ) : 0 < norm_pdf x := by
  unfold norm_pdf INV_SQRT_2PI
  positivity

/- ------------------------------------------------------------------ -/
/- Structural lemmas about the batch evaluator.                       -/
/- ------------------------------------------------------------------ -/

lemma price_batch_loop_eq (cs : List Contract) (acc : List ℝ) :
    price_batch_loop cs acc = acc ++ cs.map price_contract := by
  induction cs generalizing acc with
  | nil => simp [price_batch_loop]
  | cons c cs ih =>
    rw [price_batch_loop, ih]
    simp

lemma price_batch_eq_map (cs : List Contract) :
    price_batch cs = cs.map price_contract := by
  rw [price_batch, price_batch_loop_eq]
  simp

lemma batch_fold_spec (cs : List Contract) (st : BatchState) :
    (List.foldl batch_body st cs).contracts = st.contracts
    ∧ (List.foldl batch_body st cs).prices = st.prices ++ cs.map price_contract := by
  induction cs generalizing st with
  | nil => simp
  | cons c cs ih =>
    rw [List.foldl_cons]
    rcases ih (batch_body st c) with ⟨h1, h2⟩
    refine ⟨h1, ?_⟩
    rw [h2]
    simp [batch_body]

/-- Claim C1: price_batch is the index-wise image of price_option over the
input sequence: the output has the same length as the input, the element at
every index i is price_option applied to the contract at index i (so each
output depends only on its own contract), and the empty input yields the
empty output. -/
theorem price_batch_pointwise (contracts : List Contract) :
    (price_batch contracts).length = contracts.length
    ∧ (∀ i : ℕ, (price_batch contracts)[i]? = (contracts[i]?).map price_contract)
    ∧ price_batch [] = ([] : List ℝ) := by
  refine ⟨?_, ?_, by simp [price_batch, price_batch_loop]⟩
  · rw [price_batch_eq_map]
    simp
  · intro i
    rw [price_batch_eq_map]
    simp

/-- Claim C10: a price_batch call leaves the caller state unchanged except
for producing the output prices: the contracts vector after the folded loop
is exactly the input vector (every contract, hence every field of every
element, is unchanged), and the only effect is the returned price list. -/
theorem price_batch_frame (contracts : List Contract) :
    (price_batch_call contracts).contracts = contracts
    ∧ (price_batch_call contracts).prices = price_batch contracts := by
  rcases batch_fold_spec contracts { contracts := contracts, prices := [] } with ⟨h1, h2⟩
  refine ⟨h1, ?_⟩
  rw [price_batch_eq_map, price_batch_call, h2]
  simp

/-- Claim C8: the pricing kernel is deterministic and pure: price_option and
compute_greeks applied to equal inputs return equal outputs, and the result
depends on nothing besides the five numeric inputs and the option type. -/
theorem kernel_deterministic (S1 K1 r1 sig1 T1 : ℝ) (t1 : OptionType)
    (S2 K2 r2 sig2 T2 : ℝ) (t2 : OptionType)
    (hS : S1 = S2) (hK : K1 = K2) (hr : r1 = r2) (hsig : sig1 = sig2)
    (hT : T1 = T2) (ht : t1 = t2) :
    price_option S1 K1 r1 sig1 T1 t1 = price_option S2 K2 r2 sig2 T2 t2
    ∧ compute_greeks S1 K1 r1 sig1 T1 t1 = compute_greeks S2 K2 r2 sig2 T2 t2 := by
  subst hS hK hr hsig hT ht
  exact ⟨rfl, rfl⟩

/-- Witness for claim C8 at the concrete contract S = 100, K = 105,
r = 0.05, sigma = 0.2, T = 0.5, CALL. -/
theorem kernel_deterministic_witness :
    price_option 100 105 (5 / 100) (2 / 10) (1 / 2) OptionType.CALL
      = price_option 100 105 (5 / 100) (2 / 10) (1 / 2) OptionType.CALL
    ∧ compute_greeks 100 105 (5 / 100) (2 / 10) (1 / 2) OptionType.CALL
      = compute_greeks 100 105 (5 / 100) (2 / 10) (1 / 2) OptionType.CALL :=
  kernel_deterministic 100 105 (5 / 100) (2 / 10) (1 / 2) OptionType.CALL
    100 105 (5 / 100) (2 / 10) (1 / 2) OptionType.CALL rfl rfl rfl rfl rfl rfl

/- ------------------------------------------------------------------ -/
/- Spec-side transcriptions, for comparison with the source embedding. -/
/- ------------------------------------------------------------------ -/

/-- Spec-side d1, transcribed from the spec formula: log of S over K, plus
r plus half sigma squared times T, all over sigma times sqrt T. -/
noncomputable def spec_d1 (S K r sigma T : ℝ) : ℝ :=
  (Real.log (S / K) + (r + sigma ^ 2 / 2) * T) / (sigma * Real.sqrt T)

/-- Spec-side d2: d1 minus sigma times sqrt T. -/
noncomputable def spec_d2 (S K r sigma T : ℝ) : ℝ :=
  spec_d1 S K r sigma T - sigma * Real.sqrt T

/-- Spec-side N: the standard normal CDF computed via the complementary
error function. -/
noncomputable def spec_N (x : ℝ) : ℝ :=
  erfc (-x / Real.sqrt 2) / 2

/-- Spec-side CALL price: S times N of d1, minus K times the discount factor
times N of d2. -/
noncomputable def spec_call_price (S K r sigma T : ℝ) : ℝ :=
  S * spec_N (spec_d1 S K r sigma T)
    - K * Real.exp (-(r * T)) * spec_N (spec_d2 S K r sigma T)

/-- Spec-side PUT price: K times the discount factor times N of minus d2,
minus S times N of minus d1. -/
noncomputable def spec_put_price (S K r sigma T : ℝ) : ℝ :=
  K * Real.exp (-(r * T)) * spec_N (-spec_d2 S K r sigma T)
    - S * spec_N (-spec_d1 S K r sigma T)

/-- Spec-side Greeks, transcribed from the spec formulas of claim C5; the
normal density appearing there (written N-prime in the spec) is the kernel
helper norm_pdf. -/
noncomputable def spec_greeks (S K r sigma T : ℝ) (type : OptionType) : Greeks :=
  { delta := match type with
      | OptionType.CALL => spec_N (spec_d1 S K r sigma T)
      | OptionType.PUT => spec_N (spec_d1 S K r sigma T) - 1
    gamma := norm_pdf (spec_d1 S K r sigma T) / (S * sigma * Real.sqrt T)
    vega := S * norm_pdf (spec_d1 S K r sigma T) * Real.sqrt T / 100
    theta := match type with
      | OptionType.CALL =>
          (-(S * norm_pdf (spec_d1 S K r sigma T) * sigma) / (2 * Real.sqrt T)
            - r * K * Real.exp (-(r * T)) * spec_N (spec_d2 S K r sigma T)) / 365
      | OptionType.PUT =>
          (-(S * norm_pdf (spec_d1 S K r sigma T) * sigma) / (2 * Real.sqrt T)
            + r * K * Real.exp (-(r * T)) * spec_N (-spec_d2 S K r sigma T)) / 365 }

lemma d1_eq_spec (S K r sigma T : ℝ) : d1 S K r sigma T = spec_d1 S K r sigma T := by
  unfold d1 spec_d1
  ring_nf

lemma norm_cdf_eq_spec_N (x : ℝ) : norm_cdf x = spec_N x := rfl

lemma exp_neg_mul (r T : ℝ) : Real.exp (-r * T) = Real.exp (-(r * T)) := by
  rw [neg_mul]

/-- Claim C3: for valid inputs, price_option returns exactly the spec
formulas: S times N of d1 minus K times exp of minus r T times N of d2 for
CALL, and K times exp of minus r T times N of minus d2 minus S times N of
minus d1 for PUT, with d1 and d2 as in the spec and N the standard normal
CDF computed via the complementary error function. -/
theorem price_option_matches_spec (S K r sigma T : ℝ)
    (hS : 0 < S) (hK : 0 < K) (hsig : 0 < sigma) (hT : 0 < T) :
    price_option S K r sigma T OptionType.CALL = spec_call_price S K r sigma T
    ∧ price_option S K r sigma T OptionType.PUT = spec_put_price S K r sigma T := by
  have hd1 := d1_eq_spec S K r sigma T
  constructor
  · simp only [price_option, spec_call_price, d2, spec_d2, hd1, exp_neg_mul,
      norm_cdf_eq_spec_N]
  · simp only [price_option, spec_put_price, d2, spec_d2, hd1, exp_neg_mul,
      norm_cdf_eq_spec_N]

/-- Witness for claim C3 at S = 100, K = 105, r = 0.05, sigma = 0.2,
T = 0.5. -/
theorem price_option_matches_spec_witness :
    price_option 100 105 (5 / 100) (2 / 10) (1 / 2) OptionType.CALL
      = spec_call_price 100 105 (5 / 100) (2 / 10) (1 / 2)
    ∧ price_option 100 105 (5 / 100) (2 / 10) (1 / 2) OptionType.PUT
      = spec_put_price 100 105 (5 / 100) (2 / 10) (1 / 2) :=
  price_option_matches_spec 100 105 (5 / 100) (2 / 10) (1 / 2)
    (by norm_num) (by norm_num) (by norm_num) (by norm_num)

/-- Claim C5: for valid inputs, compute_greeks returns exactly the spec
formulas for delta, gamma, vega (scaled by one hundred) and theta (per
calendar day, divided by 365), for both CALL and PUT. -/
theorem compute_greeks_matches_spec (S K r sigma T : ℝ)
    (hS : 0 < S) (hK : 0 < K) (hsig : 0 < sigma) (hT : 0 < T) :
    compute_greeks S K r sigma T OptionType.CALL = spec_greeks S K r sigma T OptionType.CALL
    ∧ compute_greeks S K r sigma T OptionType.PUT = spec_greeks S K r sigma T OptionType.PUT := by
  have hd1 := d1_eq_spec S K r sigma T
  constructor
  · simp only [compute_greeks, spec_greeks, d2, spec_d2, hd1, exp_neg_mul,
      norm_cdf_eq_spec_N, Greeks.mk.injEq]
    norm_num
  · simp only [compute_greeks, spec_greeks, d2, spec_d2, hd1, exp_neg_mul,
      norm_cdf_eq_spec_N, Greeks.mk.injEq]
    norm_num

/-- Witness for claim C5 at S = 100, K = 105, r = 0.05, sigma = 0.2,
T = 0.5. -/
theorem compute_greeks_matches_spec_witness :
    compute_greeks 100 105 (5 / 100) (2 / 10) (1 / 2) OptionType.CALL
      = spec_greeks 100 105 (5 / 100) (2 / 10) (1 / 2) OptionType.CALL
    ∧ compute_greeks 100 105 (5 / 100) (2 / 10) (1 / 2) OptionType.PUT
      = spec_greeks 100 105 (5 / 100) (2 / 10) (1 / 2) OptionType.PUT :=
  compute_greeks_matches_spec 100 105 (5 / 100) (2 / 10) (1 / 2)
    (by norm_num) (by norm_num) (by norm_num) (by norm_num)

/-- Claim C4: put-call parity holds exactly over the real-number embedding:
for valid inputs, the CALL price minus the PUT price with identical
parameters equals S minus K times exp of minus r T. -/
theorem put_call_parity (S K r sigma T : ℝ)
    (hS : 0 < S) (hK : 0 < K) (hsig : 0 < sigma) (hT : 0 < T) :
    price_option S K r sigma T OptionType.CALL
      - price_option S K r sigma T OptionType.PUT
      = S - K * Real.exp (-(r * T)) := by
  simp only [price_option, norm_cdf_neg, exp_neg_mul]
  ring

/-- Witness for claim C4 at S = 100, K = 100, r = 0.05, sigma = 0.2,
T = 1. -/
theorem put_call_parity_witness :
    price_option 100 100 (5 / 100) (2 / 10) 1 OptionType.CALL
      - price_option 100 100 (5 / 100) (2 / 10) 1 OptionType.PUT
      = 100 - 100 * Real.exp (-((5 / 100) * 1)) :=
  put_call_parity 100 100 (5 / 100) (2 / 10) 1
    (by norm_num) (by norm_num) (by norm_num) (by norm_num)

/-- Claim C6: for identical valid parameters, the gamma returned by
compute_greeks for CALL equals the gamma returned for PUT, and likewise for
vega; the equality is exact over the embedding since neither field depends
on the option type. -/
theorem gamma_vega_symmetry (S K r sigma T : ℝ)
    (hS : 0 < S) (hK : 0 < K) (hsig : 0 < sigma) (hT : 0 < T) :
    (compute_greeks S K r sigma T OptionType.CALL).gamma
      = (compute_greeks S K r sigma T OptionType.PUT).gamma
    ∧ (compute_greeks S K r sigma T OptionType.CALL).vega
      = (compute_greeks S K r sigma T OptionType.PUT).vega :=
  ⟨rfl, rfl⟩

/-- Witness for claim C6 at S = 100, K = 100, r = 0.05, sigma = 0.2,
T = 1. -/
theorem gamma_vega_symmetry_witness :
    (compute_greeks 100 100 (5 / 100) (2 / 10) 1 OptionType.CALL).gamma
      = (compute_greeks 100 100 (5 / 100) (2 / 10) 1 OptionType.PUT).gamma
    ∧ (compute_greeks 100 100 (5 / 100) (2 / 10) 1 OptionType.CALL).vega
      = (compute_greeks 100 100 (5 / 100) (2 / 10) 1 OptionType.PUT).vega :=
  gamma_vega_symmetry 100 100 (5 / 100) (2 / 10) 1
    (by norm_num) (by norm_num) (by norm_num) (by norm_num)

/-- Claim C9: for every valid parameter tuple, the CALL delta minus the PUT
delta equals exactly 1, since both branches evaluate the same N of d1 and
the PUT branch subtracts 1 from it. -/
theorem delta_call_put_difference (S K r sigma T : ℝ)
    (hS : 0 < S) (hK : 0 < K) (hsig : 0 < sigma) (hT : 0 < T) :
    (compute_greeks S K r sigma T OptionType.CALL).delta
      - (compute_greeks S K r sigma T OptionType.PUT).delta = 1 := by
  have hc : (compute_greeks S K r sigma T OptionType.CALL).delta
      = norm_cdf (d1 S K r sigma T) := rfl
  have hp : (compute_greeks S K r sigma T OptionType.PUT).delta
      = norm_cdf (d1 S K r sigma T) - 1.0 := rfl
  rw [hc, hp]
  norm_num

/-- Witness for claim C9 at S = 100, K = 105, r = 0.05, sigma = 0.2,
T = 0.5. -/
theorem delta_call_put_difference_witness :
    (compute_greeks 100 105 (5 / 100) (2 / 10) (1 / 2) OptionType.CALL).delta
      - (compute_greeks 100 105 (5 / 100) (2 / 10) (1 / 2) OptionType.PUT).delta = 1 :=
  delta_call_put_difference 100 105 (5 / 100) (2 / 10) (1 / 2)
    (by norm_num) (by norm_num) (by norm_num) (by norm_num)

/-- Claim C7: for valid non-degenerate inputs the Greeks satisfy the stated
bounds: CALL delta lies in the closed interval from 0 to 1, PUT delta in the
closed interval from minus 1 to 0, and gamma and vega are nonnegative for
both option types. -/
theorem greeks_bounds (S K r sigma T : ℝ)
    (hS : 0 < S) (hK : 0 < K) (hsig : 0 < sigma) (hT : 0 < T) :
    (0 ≤ (compute_greeks S K r sigma T OptionType.CALL).delta
      ∧ (compute_greeks S K r sigma T OptionType.CALL).delta ≤ 1)
    ∧ (-1 ≤ (compute_greeks S K r sigma T OptionType.PUT).delta
      ∧ (compute_greeks S K r sigma T OptionType.PUT).delta ≤ 0)
    ∧ 0 ≤ (compute_greeks S K r sigma T OptionType.CALL).gamma
    ∧ 0 ≤ (compute_greeks S K r sigma T OptionType.PUT).gamma
    ∧ 0 ≤ (compute_greeks S K r sigma T OptionType.CALL).vega
    ∧ 0 ≤ (compute_greeks S K r sigma T OptionType.PUT).vega := by
  have hcdf1 := norm_cdf_nonneg (d1 S K r sigma T)
  have hcdf2 := norm_cdf_le_one (d1 S K r sigma T)
  have hpdf := norm_pdf_pos (d1 S K r sigma T)
  have hone : (1.0 : ℝ) = 1 := by norm_num
  have hdc : (compute_greeks S K r sigma T OptionType.CALL).delta
      = norm_cdf (d1 S K r sigma T) := rfl
  have hdp : (compute_greeks S K r sigma T OptionType.PUT).delta
      = norm_cdf (d1 S K r sigma T) - 1.0 := rfl
  have hgc : (compute_greeks S K r sigma T OptionType.CALL).gamma
      = norm_pdf (d1 S K r sigma T) / (S * sigma * Real.sqrt T) := rfl
  have hgp : (compute_greeks S K r sigma T OptionType.PUT).gamma
      = norm_pdf (d1 S K r sigma T) / (S * sigma * Real.sqrt T) := rfl
  have hvc : (compute_greeks S K r sigma T OptionType.CALL).vega
      = S * norm_pdf (d1 S K r sigma T) * Real.sqrt T / 100.0 := rfl
  have hvp : (compute_greeks S K r sigma T OptionType.PUT).vega
      = S * norm_pdf (d1 S K r sigma T) * Real.sqrt T / 100.0 := rfl
  have hgamma : 0 ≤ norm_pdf (d1 S K r sigma T) / (S * sigma * Real.sqrt T) :=
    div_nonneg hpdf.le
      (mul_nonneg (mul_nonneg hS.le hsig.le) (Real.sqrt_nonneg T))
  have hvega : 0 ≤ S * norm_pdf (d1 S K r sigma T) * Real.sqrt T / 100.0 :=
    div_nonneg
      (mul_nonneg (mul_nonneg hS.le hpdf.le) (Real.sqrt_nonneg T))
      (by norm_num)
  refine ⟨⟨?_, ?_⟩, ⟨?_, ?_⟩, ?_, ?_, ?_, ?_⟩
  · rw [hdc]; exact hcdf1
  · rw [hdc]; exact hcdf2
  · rw [hdp, hone]; linarith
  · rw [hdp, hone]; linarith
  · rw [hgc]; exact hgamma
  · rw [hgp]; exact hgamma
  · rw [hvc]; exact hvega
  · rw [hvp]; exact hvega

/-- Witness for claim C7 at S = 100, K = 105, r = 0.05, sigma = 0.2,
T = 0.5. -/
theorem greeks_bounds_witness :
    (0 ≤ (compute_greeks 100 105 (5 / 100) (2 / 10) (1 / 2) OptionType.CALL).delta
      ∧ (compute_greeks 100 105 (5 / 100) (2 / 10) (1 / 2) OptionType.CALL).delta ≤ 1)
    ∧ (-1 ≤ (compute_greeks 100 105 (5 / 100) (2 / 10) (1 / 2) OptionType.PUT).delta
      ∧ (compute_greeks 100 105 (5 / 100) (2 / 10) (1 / 2) OptionType.PUT).delta ≤ 0)
    ∧ 0 ≤ (compute_greeks 100 105 (5 / 100) (2 / 10) (1 / 2) OptionType.CALL).gamma
    ∧ 0 ≤ (compute_greeks 100 105 (5 / 100) (2 / 10) (1 / 2) OptionType.PUT).gamma
    ∧ 0 ≤ (compute_greeks 100 105 (5 / 100) (2 / 10) (1 / 2) OptionType.CALL).vega
    ∧ 0 ≤ (compute_greeks 100 105 (5 / 100) (2 / 10) (1 / 2) OptionType.PUT).vega :=
  greeks_bounds 100 105 (5 / 100) (2 / 10) (1 / 2)
    (by norm_num) (by norm_num) (by norm_num) (by norm_num)

/-- Claim C2 (amended): for T = 0 or sigma = 0 the denominator sigma times
sqrt T of d1 is exactly zero, so the kernel performs a division by zero with
no special-case branch or runtime check: d1 is literally its numerator
divided by zero, and no error is raised or returned. -/
theorem degenerate_inputs_divide_by_zero (S K r sigma T : ℝ)
    (h : T = 0 ∨ sigma = 0) :
    sigma * Real.sqrt T = 0
    ∧ d1 S K r sigma T
      = (Real.log (S / K) + (r + 0.5 * sigma * sigma) * T) / 0 := by
  have hden : sigma * Real.sqrt T = 0 := by
    rcases h with h | h
    · rw [h, Real.sqrt_zero, mul_zero]
    · rw [h, zero_mul]
  refine ⟨hden, ?_⟩
  unfold d1
  rw [hden]

/-- Witness for the amended claim C2 at S = 100, K = 100, r = 0.05,
sigma = 0.2, T = 0. -/
theorem degenerate_inputs_divide_by_zero_witness :
    (2 / 10 : ℝ) * Real.sqrt 0 = 0
    ∧ d1 100 100 (5 / 100) (2 / 10) 0
      = (Real.log (100 / 100) + ((5 / 100) + 0.5 * (2 / 10) * (2 / 10)) * 0) / 0 :=
  degenerate_inputs_divide_by_zero 100 100 (5 / 100) (2 / 10) 0 (Or.inl rfl)

/-- Counterexample to claim C2 as stated: the kernel does not treat a
violated precondition as an error; at the invalid input T = 0 it silently
returns an ordinary numeric value (here the price 0 over the real-number
embedding, a NaN under IEEE doubles) computed through the degenerate d1. -/
theorem precondition_violation_not_an_error :
    price_option 100 100 (5 / 100) (2 / 10) 0 OptionType.CALL = 0 := by
  simp only [price_option, d1, d2]
  norm_num [Real.sqrt_zero, Real.log_one, Real.exp_zero]
